import Mathlib

/-!
Verification of the miladystack authentication core.

The repository's `token` package (path matcher, configuration store, token
codec, token pair manager, request extractor) is exercised by its test file
but the implementation itself is not among the provided sources; those
components are therefore modelled from the specification (each such
definition's doc comment starts with "Modelled from the spec:").  The
generic store layer (`pkg/store/store.go`) is present and is embedded
directly from the source.

Time is modelled as natural-number seconds since the epoch.  A signed token
is modelled structurally: a token is either an unstructured raw string
(malformed unless empty-checked separately) or a claim set signed with a
key; signature verification is equality of the signing key and the
verification key, which is the observable behaviour of HMAC verification.
-/

namespace MiladyStack

/-! ### Path matcher -/

/-- Modelled from the spec: glob-style matching of a single path segment,
where `*` matches any (possibly empty) run of characters and never spans a
`/` boundary (the inputs are single segments).  Written with an explicit
fuel argument so that the recursion is structural; the fuel is always at
least `pat.length + s.length + 1`, so the zero-fuel branch (which is exact
for the only state that could reach it, both lists empty) is never hit. -/
def globMatchF : Nat → List Char → List Char → Bool
  | 0, pat, s => pat.isEmpty && s.isEmpty
  | fuel + 1, pat, s =>
    match pat, s with
    | [], rest => rest.isEmpty
    | p :: ps, [] => if p == '*' then globMatchF fuel ps [] else false
    | p :: ps, c :: cs =>
      if p == '*' then globMatchF fuel ps (c :: cs) || globMatchF fuel (p :: ps) cs
      else p == c && globMatchF fuel ps cs

/-- Modelled from the spec: glob matching of one segment against one
pattern segment. -/
def globMatch (pat s : List Char) : Bool :=
  globMatchF (pat.length + s.length + 1) pat s

/-- Modelled from the spec: splitting a character list on a separator, with
the semantics of Go's `strings.Split` (an empty input yields one empty
segment; a leading separator yields a leading empty segment). -/
def splitOnChar (sep : Char) : List Char → List (List Char)
  | [] => [[]]
  | c :: cs =>
    let rest := splitOnChar sep cs
    if c == sep then [] :: rest
    else
      match rest with
      | [] => [[c]]
      | r :: rs => (c :: r) :: rs

/-- Modelled from the spec: one pattern segment against one candidate
segment — equal, or glob matching when the pattern segment contains a
wildcard character. -/
def segMatch (p c : List Char) : Bool :=
  if p.contains '*' then globMatch p c else p == c

/-- Modelled from the spec: pairwise segment matching; lists of different
lengths never match. -/
def segsMatch : List (List Char) → List (List Char) → Bool
  | [], [] => true
  | p :: ps, c :: cs => segMatch p c && segsMatch ps cs
  | _, _ => false

/-- Modelled from the spec: `matchWildcard(candidate, pattern)` splits both
on "/"; if the segment counts differ there is no match, otherwise segments
are matched pairwise (equality, or single-segment glob matching when the
pattern segment holds a wildcard). -/
def matchWildcard (s pattern : String) : Bool :=
  let cs := splitOnChar '/' s.toList
  let ps := splitOnChar '/' pattern.toList
  ps.length == cs.length && segsMatch ps cs

/-- Whether the first list is an initial run of the second. -/
def leadsWith : List Char → List Char → Bool
  | [], _ => true
  | _ :: _, [] => false
  | p :: ps, c :: cs => p == c && leadsWith ps cs

/-- Whether a pattern ends in the trailing wildcard segment marker `/*`. -/
def endsWithSlashStar (l : List Char) : Bool :=
  leadsWith ['*', '/'] l.reverse

/-- Modelled from the spec: matching one installed skip pattern.  A pattern
ending in the trailing wildcard segment `/*` denotes its stem and everything
under it: the candidate matches if it equals the stem or starts with
`stem ++ "/"`.  Any other pattern is matched segment-by-segment by
`matchWildcard`. -/
def matchPattern (path pattern : String) : Bool :=
  let q := pattern.toList
  if endsWithSlashStar q then
    let stem := q.take (q.length - 2)
    path.toList == stem || leadsWith (stem ++ ['/']) path.toList
  else matchWildcard path pattern

/-! ### Configuration -/

/-- Modelled from the spec: the process-wide configuration — signing key,
identity claim name (empty string means identity is not required), access
token lifetime, refresh token lifetime, and the installed skip-path
patterns.  Lifetimes are in seconds. -/
structure Config where
  key : String
  identityKey : String
  expiration : Nat
  refreshTokenExpiration : Nat
  skipPaths : List String
deriving DecidableEq

/-- Modelled from the spec: `IsPathSkipped` returns true exactly when some
installed pattern matches the path; a path matching no pattern is never
skipped. -/
def IsPathSkipped (cfg : Config) (path : String) : Bool :=
  cfg.skipPaths.any (fun pat => matchPattern path pat)

/-! ### Token codec -/

/-- Modelled from the spec: the claim set of a token — the registered time
claims `nbf`, `iat`, `exp`, the optional identity claim (claim name paired
with the identity value), and the optional `type` claim ("access" or
"refresh"). -/
structure Claims where
  nbf : Nat
  iat : Nat
  exp : Nat
  ident : Option (String × String)
  typ : Option String
deriving DecidableEq

/-- Modelled from the spec: a compact token string.  `raw s` is an
unstructured string (the empty token is `raw ""`); `signed claims key` is a
well-formed token whose signature was produced with `key` over exactly
`claims`.  Verifying a signed token with a different key observes only a
signature mismatch, which the model captures by comparing the keys. -/
inductive Token where
  | raw (s : String)
  | signed (claims : Claims) (key : String)
deriving DecidableEq

/-- The error taxonomy of the token core. -/
inductive TokenErr where
  | invalidToken
  | expiredToken
  | notYetValid
  | emptyToken
  | invalidRefreshToken
  | emptyAuthHeader
  | malformedAuthHeader
deriving DecidableEq

/-- Modelled from the spec: `ParseWithKey` verifies the signature against
the supplied key and checks the registered time claims; it fails with an
invalid-token error on a malformed token or a signature mismatch, and with
a time error (distinct from the signature error) on a token outside its
validity window. -/
def ParseWithKey (tok : Token) (key : String) (now : Nat) : Except TokenErr Claims :=
  match tok with
  | .raw _ => .error .invalidToken
  | .signed claims k =>
    if k = key then
      if now < claims.nbf then .error .notYetValid
      else if claims.exp ≤ now then .error .expiredToken
      else .ok claims
    else .error .invalidToken

/-- Modelled from the spec: identity extraction from a verified claim set.
When the identity claim name is unset the identity is not required and the
empty identity is returned with no error, even when no such claim exists;
otherwise the configured identity claim is looked up. -/
def extractIdentity (cfg : Config) (claims : Claims) : Except TokenErr String :=
  if cfg.identityKey = "" then .ok ""
  else
    match claims.ident with
    | some (k, v) => if k = cfg.identityKey then .ok v else .error .invalidToken
    | none => .error .invalidToken

/-- Modelled from the spec: `ParseIdentity` verifies the token with the
supplied key and then extracts the configured identity claim. -/
def ParseIdentity (cfg : Config) (tok : Token) (key : String) (now : Nat) :
    Except TokenErr String :=
  match ParseWithKey tok key now with
  | .error e => .error e
  | .ok claims => extractIdentity cfg claims

/-- Modelled from the spec: `Sign` builds the standard time claims (issued
now, not valid before now, expiring after the configured access lifetime)
plus the identity claim when identity is required, and signs with the
configured key; it returns the token and its expiry instant. -/
def Sign (cfg : Config) (identity : String) (now : Nat) : Token × Nat :=
  let claims : Claims :=
    { nbf := now, iat := now, exp := now + cfg.expiration
      ident := if cfg.identityKey = "" then none else some (cfg.identityKey, identity)
      typ := none }
  (.signed claims cfg.key, now + cfg.expiration)

/-! ### Token pair manager -/

/-- Modelled from the spec: an access token with its expiry instant and a
refresh token with its expiry instant, created together. -/
structure TokenPair where
  accessToken : Token
  accessExpireAt : Nat
  refreshToken : Token
  refreshExpireAt : Nat
deriving DecidableEq

/-- Modelled from the spec: signing one member of a token pair — the
standard time claims with the given lifetime, the identity claim when
required, and the `type` claim. -/
def signWithType (cfg : Config) (identity typ : String) (lifetime now : Nat) :
    Token × Nat :=
  let claims : Claims :=
    { nbf := now, iat := now, exp := now + lifetime
      ident := if cfg.identityKey = "" then none else some (cfg.identityKey, identity)
      typ := some typ }
  (.signed claims cfg.key, now + lifetime)

/-- Modelled from the spec: `SignTokens` issues an access token with
`type = "access"` and the access lifetime, and a refresh token with
`type = "refresh"` and the refresh lifetime, for the same identity and with
the same key. -/
def SignTokens (cfg : Config) (identity : String) (now : Nat) : TokenPair :=
  let a := signWithType cfg identity "access" cfg.expiration now
  let r := signWithType cfg identity "refresh" cfg.refreshTokenExpiration now
  { accessToken := a.1, accessExpireAt := a.2
    refreshToken := r.1, refreshExpireAt := r.2 }

/-- Modelled from the spec: `RefreshTokens` fails immediately with the
empty-token error on the empty input; otherwise it verifies the token
against the configured key, requires the `type` claim to equal "refresh",
extracts the identity and issues a brand-new pair via `SignTokens`; every
verification failure surfaces as the invalid-refresh-token error. -/
def RefreshTokens (cfg : Config) (tok : Token) (now : Nat) :
    Except TokenErr TokenPair :=
  if tok = .raw "" then .error .emptyToken
  else
    match ParseWithKey tok cfg.key now with
    | .error _ => .error .invalidRefreshToken
    | .ok claims =>
      if claims.typ = some "refresh" then
        match extractIdentity cfg claims with
        | .error _ => .error .invalidRefreshToken
        | .ok identity => .ok (SignTokens cfg identity now)
      else .error .invalidRefreshToken

/-- The `type` claim a token carries, when it carries one. -/
def tokenTyp : Token → Option String
  | .raw _ => none
  | .signed claims _ => claims.typ

/-! ### Request extractor -/

/-- Modelled from the spec: an authorization header value, decomposed as a
scheme keyword followed by a space and a payload.  The header is
well-formed exactly when the scheme is the case-sensitive keyword
`Bearer`. -/
structure HeaderVal where
  scheme : String
  payload : Token
deriving DecidableEq

/-- Modelled from the spec: an inbound request, normalised over the HTTP and
RPC transports — a request path and the optional authorization entry. -/
structure Request where
  path : String
  authHeader : Option HeaderVal
deriving DecidableEq

/-- Modelled from the spec: bearer-token extraction — a missing header
fails with the empty-auth-header error; a present header whose scheme is
not exactly `Bearer` fails with the malformed-auth-header error. -/
def getTokenFromHeader (req : Request) : Except TokenErr Token :=
  match req.authHeader with
  | none => .error .emptyAuthHeader
  | some hv => if hv.scheme = "Bearer" then .ok hv.payload else .error .malformedAuthHeader

/-- Modelled from the spec: the skip-ignoring extractor — always requires a
token, regardless of the skip configuration, then delegates to the token
codec with the globally configured key. -/
def ParseRequestIgnoreSkip (cfg : Config) (req : Request) (now : Nat) :
    Except TokenErr String :=
  match getTokenFromHeader req with
  | .error e => .error e
  | .ok tok => ParseIdentity cfg tok cfg.key now

/-- Modelled from the spec: the skip-aware extractor — when the request
path matches an installed skip pattern it returns the empty identity with
no error; otherwise it behaves as the skip-ignoring extractor. -/
def ParseRequest (cfg : Config) (req : Request) (now : Nat) :
    Except TokenErr String :=
  if IsPathSkipped cfg req.path then .ok ""
  else ParseRequestIgnoreSkip cfg req now

/-! ### Configuration accessor heap model

Go slices alias a backing array, so "the returned slice is a defensive
copy" is a statement about aliasing.  The model makes the aliasing
explicit: a heap of slices addressed by index, the configuration holding a
reference to its skip-path slice, and `GetSkipPaths` allocating a fresh
slice holding a copy of the stored contents. -/

/-- A heap of string slices; a reference is an index into the heap. -/
structure SliceHeap where
  slices : List (List String)
deriving DecidableEq

/-- The contents a reference points at. -/
def SliceHeap.read (h : SliceHeap) (r : Nat) : List String :=
  h.slices.getD r []

/-- Allocate a fresh slice with the given contents; returns the new heap
and the fresh reference. -/
def SliceHeap.alloc (h : SliceHeap) (v : List String) : SliceHeap × Nat :=
  (⟨h.slices ++ [v]⟩, h.slices.length)

/-- In-place update of element `i` of the slice `r` points at. -/
def SliceHeap.writeElem (h : SliceHeap) (r i : Nat) (x : String) : SliceHeap :=
  ⟨h.slices.set r ((h.slices.getD r []).set i x)⟩

/-- The stored configuration's reference to its skip-path slice. -/
structure ConfigRef where
  skipPathsRef : Nat
deriving DecidableEq

/-- Modelled from the spec: `GetSkipPaths` returns a defensive value copy
of the stored skip-path slice — a freshly allocated slice holding the
stored contents, never the stored reference itself. -/
def GetSkipPaths (h : SliceHeap) (cfg : ConfigRef) : SliceHeap × Nat :=
  h.alloc (h.read cfg.skipPathsRef)

/-! ### Store layer (embedded from `pkg/store/store.go`) -/

/-- A database-layer error as `errors.Is` sees it: the gorm
record-not-found sentinel, an error wrapping another, or any other
error. -/
inductive DBError where
  | recordNotFound
  | wrapped (inner : DBError)
  | other (msg : String)
deriving DecidableEq

/-- Go's `errors.Is(err, gorm.ErrRecordNotFound)`: the sentinel itself or
any error whose wrap chain reaches it. -/
def errorsIsRecordNotFound : DBError → Bool
  | .recordNotFound => true
  | .wrapped e => errorsIsRecordNotFound e
  | .other _ => false

/-- `Store.Delete` from `pkg/store/store.go`, parameterised by the outcome
of the underlying `db.Delete` call (`none` for a nil error): the error is
swallowed when it is the record-not-found sentinel (deleting a non-existent
record is not an error) and returned unchanged otherwise. -/
def StoreDelete (deleteErr : Option DBError) : Option DBError :=
  match deleteErr with
  | none => none
  | some e => if errorsIsRecordNotFound e then none else some e

/-! ### Example configurations and requests used by the witnesses -/

/-- The configuration of the token tests: the test key, the `user_id`
identity claim, a one-hour access lifetime and the seven-day default
refresh lifetime. -/
def cfgA : Config :=
  { key := "test-secret-key", identityKey := "user_id", expiration := 3600,
    refreshTokenExpiration := 604800, skipPaths := [] }

/-- The skip-pattern configuration of the path-matching test: one exact
pattern, one trailing-wildcard pattern and one inline-wildcard pattern. -/
def skipCfg : Config :=
  { key := "test-key", identityKey := "user_id", expiration := 3600,
    refreshTokenExpiration := 604800,
    skipPaths := ["/exact", "/prefix/*", "/wild*card"] }

/-- The configuration whose only skip pattern is `/health`. -/
def cfgHealth : Config :=
  { key := "test-secret-key", identityKey := "user_id", expiration := 3600,
    refreshTokenExpiration := 604800, skipPaths := ["/health"] }

/-- A request to the skipped path `/health` carrying no authorization
entry. -/
def reqHealthNoAuth : Request := { path := "/health", authHeader := none }

/-- A request to a non-skipped path whose authorization header uses the
wrong scheme keyword. -/
def reqInvalidScheme : Request :=
  { path := "/test", authHeader := some ⟨"InvalidFormat", Token.raw "tok"⟩ }

/-! ### Helper lemmas about the codec -/

/-- Verification of a token signed with the verification key succeeds
inside the validity window and returns the signed claims. -/
theorem ParseWithKey_signed_valid (claims : Claims) (key : String) (now : Nat)
    (h1 : claims.nbf ≤ now) (h2 : now < claims.exp) :
    ParseWithKey (.signed claims key) key now = .ok claims := by
  simp only [ParseWithKey]
  rw [if_pos trivial, if_neg (by omega), if_neg (by omega)]

/-- What a successful verification guarantees about the token. -/
theorem ParseWithKey_ok_inv (claims : Claims) (k key : String) (now : Nat) (c : Claims)
    (h : ParseWithKey (.signed claims k) key now = .ok c) :
    c = claims ∧ k = key ∧ claims.nbf ≤ now ∧ now < claims.exp := by
  simp only [ParseWithKey] at h
  by_cases hk : k = key
  · rw [if_pos hk] at h
    by_cases h1 : now < claims.nbf
    · rw [if_pos h1] at h; cases h
    · rw [if_neg h1] at h
      by_cases h2 : claims.exp ≤ now
      · rw [if_pos h2] at h; cases h
      · rw [if_neg h2] at h
        injection h with hc
        exact ⟨hc.symm, hk, by omega, by omega⟩
  · rw [if_neg hk] at h; cases h

/-- A failed verification reports only a token-level error. -/
theorem ParseWithKey_error_inv (tok : Token) (key : String) (now : Nat) (e : TokenErr)
    (h : ParseWithKey tok key now = .error e) :
    e = .invalidToken ∨ e = .notYetValid ∨ e = .expiredToken := by
  cases tok with
  | raw s =>
    simp only [ParseWithKey] at h
    injection h with h; exact .inl h.symm
  | signed claims k =>
    simp only [ParseWithKey] at h
    by_cases hk : k = key
    · rw [if_pos hk] at h
      by_cases h1 : now < claims.nbf
      · rw [if_pos h1] at h; injection h with h; exact .inr (.inl h.symm)
      · rw [if_neg h1] at h
        by_cases h2 : claims.exp ≤ now
        · rw [if_pos h2] at h; injection h with h; exact .inr (.inr h.symm)
        · rw [if_neg h2] at h; cases h
    · rw [if_neg hk] at h; injection h with h; exact .inl h.symm

/-- A failed identity extraction reports only the invalid-token error. -/
theorem extractIdentity_error_inv (cfg : Config) (claims : Claims) (e : TokenErr)
    (h : extractIdentity cfg claims = .error e) : e = .invalidToken := by
  unfold extractIdentity at h
  by_cases hik : cfg.identityKey = ""
  · rw [if_pos hik] at h; cases h
  · rw [if_neg hik] at h
    cases hid : claims.ident with
    | none => rw [hid] at h; injection h with h; exact h.symm
    | some kv =>
      obtain ⟨k, v⟩ := kv
      rw [hid] at h
      simp only [] at h
      by_cases hk : k = cfg.identityKey
      · rw [if_pos hk] at h; cases h
      · rw [if_neg hk] at h; injection h with h; exact h.symm

/-- The codec never reports a transport-level (header) error. -/
theorem ParseIdentity_ne_header_err (cfg : Config) (tok : Token) (key : String)
    (now : Nat) :
    ParseIdentity cfg tok key now ≠ .error .emptyAuthHeader ∧
    ParseIdentity cfg tok key now ≠ .error .malformedAuthHeader := by
  unfold ParseIdentity
  cases hpk : ParseWithKey tok key now with
  | error e =>
    rcases ParseWithKey_error_inv tok key now e hpk with h | h | h <;>
      subst h <;> exact ⟨by simp, by simp⟩
  | ok claims =>
    cases hex : extractIdentity cfg claims with
    | error e =>
      have he := extractIdentity_error_inv cfg claims e hex
      subst he
      exact ⟨by simp [hex], by simp [hex]⟩
    | ok v => exact ⟨by simp [hex], by simp [hex]⟩

/-! ### The claims -/

/-- C1: for every identity for which `SignTokens` succeeds (under a
configuration satisfying the spec's invariant that the refresh lifetime
exceeds the access lifetime), the returned pair's `RefreshExpireAt` is
strictly after its `AccessExpireAt`. -/
theorem SignTokens_refresh_expires_strictly_after_access
    (cfg : Config) (identity : String) (now : Nat)
    (hcfg : cfg.expiration < cfg.refreshTokenExpiration) :
    (SignTokens cfg identity now).accessExpireAt
      < (SignTokens cfg identity now).refreshExpireAt := by
  simp only [SignTokens, signWithType]
  omega

/-- Witness for C1 at the test configuration. -/
theorem SignTokens_refresh_expires_strictly_after_access_witness :
    (SignTokens cfgA "test-user-123" 1000000).accessExpireAt
      < (SignTokens cfgA "test-user-123" 1000000).refreshExpireAt :=
  SignTokens_refresh_expires_strictly_after_access cfgA "test-user-123" 1000000
    (by decide)

/-- C2: for every identity string, signing it and then calling
`ParseIdentity` on the resulting token with the same key returns exactly
the original identity and no error (identity required, positive access
lifetime, parsed while the token is valid). -/
theorem Sign_then_ParseIdentity_roundtrip
    (cfg : Config) (identity : String) (now : Nat)
    (hik : cfg.identityKey ≠ "") (hexp : 0 < cfg.expiration) :
    ParseIdentity cfg (Sign cfg identity now).1 cfg.key now = .ok identity := by
  unfold ParseIdentity Sign
  rw [ParseWithKey_signed_valid _ _ _ (by simp) (by simp; omega)]
  unfold extractIdentity
  rw [if_neg hik]
  simp only [if_neg hik]
  rw [if_pos trivial]

/-- Witness for C2 at the test configuration. -/
theorem Sign_then_ParseIdentity_roundtrip_witness :
    ParseIdentity cfgA (Sign cfgA "test-user-123" 1000000).1 cfgA.key 1000000
      = .ok "test-user-123" :=
  Sign_then_ParseIdentity_roundtrip cfgA "test-user-123" 1000000
    (by decide) (by decide)

/-- C4: `RefreshTokens` on the empty token always fails with the
designated empty-token error, whatever the configuration and the clock,
before any verification is attempted. -/
theorem RefreshTokens_empty_token (cfg : Config) (now : Nat) :
    RefreshTokens cfg (Token.raw "") now = .error .emptyToken := by
  simp [RefreshTokens]

/-- C5: with the installed patterns `/exact`, `/prefix/*` and
`/wild*card`, `IsPathSkipped` follows the segment-level semantics — the
exact pattern matches only itself, the trailing-wildcard pattern matches
its stem and everything under it, the inline-wildcard pattern matches only
paths with the same segment count — and a path matched by no installed
pattern is never skipped. -/
theorem IsPathSkipped_segment_semantics :
    IsPathSkipped skipCfg "/exact" = true ∧
    IsPathSkipped skipCfg "/exact/sub" = false ∧
    IsPathSkipped skipCfg "/prefix" = true ∧
    IsPathSkipped skipCfg "/prefix/sub" = true ∧
    IsPathSkipped skipCfg "/prefix/sub/123" = true ∧
    IsPathSkipped skipCfg "/wildcard" = true ∧
    IsPathSkipped skipCfg "/wildcard/sub" = false ∧
    ∀ (cfg : Config) (path : String),
      (∀ pat ∈ cfg.skipPaths, matchPattern path pat = false) →
      IsPathSkipped cfg path = false := by
  refine ⟨by decide, by decide, by decide, by decide, by decide, by decide, by decide,
    fun cfg path h => ?_⟩
  simp only [IsPathSkipped, List.any_eq_false]
  intro pat hpat
  simp [h pat hpat]

/-- C8: `matchWildcard` matches the candidate against the pattern
segment by segment — the two quoted evaluations hold, and any candidate
whose "/"-segment count differs from the pattern's never matches. -/
theorem matchWildcard_segment_by_segment :
    matchWildcard "test/abc/xyz/end" "test/*/xyz/*" = true ∧
    matchWildcard "short" "long*" = false ∧
    ∀ s pattern : String,
      (splitOnChar '/' s.toList).length ≠ (splitOnChar '/' pattern.toList).length →
      matchWildcard s pattern = false := by
  refine ⟨by decide, by decide, fun s pattern h => ?_⟩
  have hne : (splitOnChar '/' pattern.toList).length ≠ (splitOnChar '/' s.toList).length :=
    fun hh => h hh.symm
  simp only [matchWildcard]
  have hb : ((splitOnChar '/' pattern.toList).length
      == (splitOnChar '/' s.toList).length) = false :=
    beq_eq_false_iff_ne.mpr hne
  rw [hb, Bool.false_and]

/-- C3: `RefreshTokens` fails on every token whose `type` claim is not
"refresh" (in particular an access-typed token is rejected), and on a
well-formed, correctly signed, unexpired refresh-typed token it succeeds
with a brand-new pair whose access token carries the same identity as the
presented refresh token. -/
theorem RefreshTokens_requires_refresh_type
    (cfg : Config) (tok : Token) (now : Nat) :
    (tokenTyp tok ≠ some "refresh" → ∃ e, RefreshTokens cfg tok now = .error e) ∧
    (∀ claims identity, tok = .signed claims cfg.key →
      claims.nbf ≤ now → now < claims.exp → claims.typ = some "refresh" →
      cfg.identityKey ≠ "" → claims.ident = some (cfg.identityKey, identity) →
      0 < cfg.expiration →
      RefreshTokens cfg tok now = .ok (SignTokens cfg identity now) ∧
      ParseIdentity cfg (SignTokens cfg identity now).accessToken cfg.key now
        = .ok identity) := by
  constructor
  · intro hty
    cases tok with
    | raw s =>
      by_cases hs : s = ""
      · subst hs
        exact ⟨.emptyToken, by simp [RefreshTokens]⟩
      · refine ⟨.invalidRefreshToken, ?_⟩
        simp only [RefreshTokens]
        rw [if_neg (by simp [hs])]
        rfl
    | signed claims k =>
      simp only [RefreshTokens]
      rw [if_neg (by simp)]
      cases hpk : ParseWithKey (.signed claims k) cfg.key now with
      | error e => exact ⟨.invalidRefreshToken, rfl⟩
      | ok c =>
        obtain ⟨hc, hk, h1, h2⟩ := ParseWithKey_ok_inv claims k cfg.key now c hpk
        subst hc
        refine ⟨.invalidRefreshToken, ?_⟩
        have hne : ¬ c.typ = some "refresh" := fun hcon => hty hcon
        simp only []
        rw [if_neg hne]
  · rintro claims identity rfl h1 h2 hty hik hid hexp
    constructor
    · simp only [RefreshTokens]
      rw [if_neg (by simp)]
      rw [ParseWithKey_signed_valid claims cfg.key now h1 h2]
      simp only []
      rw [if_pos hty]
      unfold extractIdentity
      rw [if_neg hik, hid]
      simp only []
      rw [if_pos trivial]
    · unfold ParseIdentity SignTokens signWithType
      simp only []
      rw [ParseWithKey_signed_valid _ cfg.key now (by simp) (by simp; omega)]
      unfold extractIdentity
      rw [if_neg hik]
      simp only [if_neg hik]
      rw [if_pos trivial]

/-- C6: a request to a path matched by an installed skip pattern and
carrying no authorization entry yields the empty identity and no error
through the skip-aware extractor, while the skip-ignoring extractor fails
on the same request with the missing-header error. -/
theorem ParseRequest_skipped_path_no_header
    (cfg : Config) (req : Request) (now : Nat)
    (hskip : IsPathSkipped cfg req.path = true) (hhdr : req.authHeader = none) :
    ParseRequest cfg req now = .ok "" ∧
    ParseRequestIgnoreSkip cfg req now = .error .emptyAuthHeader := by
  constructor
  · simp [ParseRequest, hskip]
  · simp [ParseRequestIgnoreSkip, getTokenFromHeader, hhdr]

/-- Witness for C6: the `/health` request of the test. -/
theorem ParseRequest_skipped_path_no_header_witness :
    ParseRequest cfgHealth reqHealthNoAuth 0 = .ok "" ∧
    ParseRequestIgnoreSkip cfgHealth reqHealthNoAuth 0 = .error .emptyAuthHeader :=
  ParseRequest_skipped_path_no_header cfgHealth reqHealthNoAuth 0 (by decide) rfl

/-- C7: on a non-skipped path, `ParseRequest` fails with the
empty-auth-header error exactly when the authorization entry is absent,
and a present entry whose scheme is not the case-sensitive keyword
`Bearer` fails with the malformed-auth-header error. -/
theorem ParseRequest_header_error_taxonomy
    (cfg : Config) (req : Request) (now : Nat)
    (hns : IsPathSkipped cfg req.path = false) :
    (ParseRequest cfg req now = .error .emptyAuthHeader ↔ req.authHeader = none) ∧
    (∀ hv, req.authHeader = some hv → hv.scheme ≠ "Bearer" →
      ParseRequest cfg req now = .error .malformedAuthHeader) := by
  have hpr : ParseRequest cfg req now = ParseRequestIgnoreSkip cfg req now := by
    simp [ParseRequest, hns]
  constructor
  · rw [hpr]
    cases hh : req.authHeader with
    | none => simp [ParseRequestIgnoreSkip, getTokenFromHeader, hh]
    | some hv =>
      simp only [ParseRequestIgnoreSkip, getTokenFromHeader, hh]
      by_cases hb : hv.scheme = "Bearer"
      · rw [if_pos hb]
        simp only []
        constructor
        · intro h
          exact absurd h (ParseIdentity_ne_header_err cfg hv.payload cfg.key now).1
        · intro h; cases h
      · rw [if_neg hb]
        constructor
        · intro h; exfalso; simp at h
        · intro h; cases h
  · intro hv hh hb
    rw [hpr]
    simp [ParseRequestIgnoreSkip, getTokenFromHeader, hh, hb]

/-- Witness for C7: the `InvalidFormat` header of the test yields the
malformed-header error, not the missing-header error. -/
theorem ParseRequest_header_error_taxonomy_witness :
    ParseRequest cfgA reqInvalidScheme 0 = .error .malformedAuthHeader :=
  (ParseRequest_header_error_taxonomy cfgA reqInvalidScheme 0 (by decide)).2
    ⟨"InvalidFormat", Token.raw "tok"⟩ rfl (by decide)

/-- C10: `Store.Delete` swallows the record-not-found error — when the
underlying delete reports `gorm.ErrRecordNotFound` (directly or through a
wrap chain) it returns nil, deleting a non-existent record is not an
error, and any other underlying error is returned to the caller
unchanged. -/
theorem StoreDelete_record_not_found_is_nil :
    StoreDelete (some .recordNotFound) = none ∧
    StoreDelete none = none ∧
    (∀ e, errorsIsRecordNotFound e = true → StoreDelete (some e) = none) ∧
    (∀ e, errorsIsRecordNotFound e = false → StoreDelete (some e) = some e) := by
  refine ⟨by decide, rfl, fun e he => ?_, fun e he => ?_⟩
  · simp [StoreDelete, he]
  · simp [StoreDelete, he]

/-- `getD` after an out-of-place `set` is unchanged. -/
theorem getD_set_ne {α : Type} (l : List α) (i j : Nat) (a d : α) (hij : i ≠ j) :
    (l.set i a).getD j d = l.getD j d := by
  induction l generalizing i j with
  | nil => rfl
  | cons y ys ih =>
    cases i with
    | zero =>
      cases j with
      | zero => exact absurd rfl hij
      | succ j => rfl
    | succ i =>
      cases j with
      | zero => rfl
      | succ j => exact ih i j (fun hh => hij (by omega))

/-- `getD` inside the left part of an append is unchanged. -/
theorem getD_append_left {α : Type} (l t : List α) (j : Nat) (d : α)
    (hj : j < l.length) : (l ++ t).getD j d = l.getD j d := by
  induction l generalizing j with
  | nil => exact absurd hj (by simp)
  | cons y ys ih =>
    cases j with
    | zero => rfl
    | succ j => exact ih j (by simpa using hj)

/-- `getD` at the first appended position reads the appended element. -/
theorem getD_append_len {α : Type} (l : List α) (v d : α) :
    (l ++ [v]).getD l.length d = v := by
  induction l with
  | nil => rfl
  | cons y ys ih => exact ih

/-- C9: `GetSkipPaths` returns a defensive copy — the returned slice is a
fresh reference, mutating any element of it leaves the stored
configuration's slice unchanged, and a subsequent `GetSkipPaths` call
still reads the original values. -/
theorem GetSkipPaths_returns_defensive_copy
    (h : SliceHeap) (cfg : ConfigRef) (i : Nat) (x : String)
    (href : cfg.skipPathsRef < h.slices.length) :
    (GetSkipPaths h cfg).2 ≠ cfg.skipPathsRef ∧
    ((GetSkipPaths h cfg).1.writeElem (GetSkipPaths h cfg).2 i x).read
        cfg.skipPathsRef = h.read cfg.skipPathsRef ∧
    (GetSkipPaths ((GetSkipPaths h cfg).1.writeElem (GetSkipPaths h cfg).2 i x)
          cfg).1.read
        (GetSkipPaths ((GetSkipPaths h cfg).1.writeElem (GetSkipPaths h cfg).2 i x)
          cfg).2
      = h.read cfg.skipPathsRef := by
  have hlen : (GetSkipPaths h cfg).2 = h.slices.length := rfl
  have hne : h.slices.length ≠ cfg.skipPathsRef := by omega
  have hmut : ((GetSkipPaths h cfg).1.writeElem (GetSkipPaths h cfg).2 i x).read
      cfg.skipPathsRef = h.read cfg.skipPathsRef := by
    show ((h.slices ++ [h.read cfg.skipPathsRef]).set h.slices.length
        (((h.slices ++ [h.read cfg.skipPathsRef]).getD h.slices.length []).set i x)).getD
        cfg.skipPathsRef []
      = h.slices.getD cfg.skipPathsRef []
    rw [getD_set_ne _ _ _ _ _ hne]
    exact getD_append_left _ _ _ _ href
  refine ⟨by rw [hlen]; omega, hmut, ?_⟩
  show (((GetSkipPaths h cfg).1.writeElem (GetSkipPaths h cfg).2 i x).slices
      ++ [((GetSkipPaths h cfg).1.writeElem (GetSkipPaths h cfg).2 i x).read
            cfg.skipPathsRef]).getD
      (((GetSkipPaths h cfg).1.writeElem (GetSkipPaths h cfg).2 i x).slices).length []
    = h.read cfg.skipPathsRef
  rw [getD_append_len]
  exact hmut

/-- A heap holding one stored skip-path slice. -/
def heapW : SliceHeap := ⟨[["/test1", "/test2"]]⟩

/-- The stored configuration's reference into `heapW`. -/
def cfgRefW : ConfigRef := ⟨0⟩

/-- Witness for C9: mutating element 0 of the returned copy to
"/modified" leaves the stored slice unchanged. -/
theorem GetSkipPaths_returns_defensive_copy_witness :
    (GetSkipPaths heapW cfgRefW).2 ≠ cfgRefW.skipPathsRef ∧
    ((GetSkipPaths heapW cfgRefW).1.writeElem (GetSkipPaths heapW cfgRefW).2 0
        "/modified").read cfgRefW.skipPathsRef = heapW.read cfgRefW.skipPathsRef ∧
    (GetSkipPaths ((GetSkipPaths heapW cfgRefW).1.writeElem
          (GetSkipPaths heapW cfgRefW).2 0 "/modified") cfgRefW).1.read
        (GetSkipPaths ((GetSkipPaths heapW cfgRefW).1.writeElem
          (GetSkipPaths heapW cfgRefW).2 0 "/modified") cfgRefW).2
      = heapW.read cfgRefW.skipPathsRef :=
  GetSkipPaths_returns_defensive_copy heapW cfgRefW 0 "/modified" (by decide)

end MiladyStack
